import Mathlib

/-!
Verification development for the SwagX repository (bx33661/SwagX).

The repository has two JavaScript source files:
* `src/parser/swaggerParser.js` — the `SwaggerParserClass` wrapper around the
  external `swagger-parser` library: `parse`, `extractEndpoints`,
  `extractParameters`, `extractRequestBody`, `extractResponses`,
  `convertToCsv`, `saveToFile`, `validate`;
* the CLI entry point (`commander` based) with the `parse`, `test` and `scan`
  subcommands.

The security tester (`./tester/securityTester`) and the reporter
(`./reporter/reporter`) are required by the CLI but are absent from the
repository sources; where a claim depends on them they are modelled from the
specification, and each such definition is marked `Modelled from the spec:`.

JavaScript values are embedded as a `Json` inductive; machine integers do not
occur (the only numbers involved are small literals).  Fallible operations
(`throw`) are embedded as `Except String`.
-/

namespace SwagX

/-- Model of a JavaScript/JSON value as produced by parsing a document. -/
inductive Json where
  | null : Json
  | bool : Bool → Json
  | num : Int → Json
  | str : String → Json
  | arr : List Json → Json
  | obj : List (String × Json) → Json
deriving Repr

/-- Truthiness of a JSON value under JavaScript coercion: `null`, `false`,
`0` and the empty string are falsy; arrays and objects are always truthy. -/
def jsFalsy : Json → Bool
  | .null => true
  | .bool b => !b
  | .num n => n == 0
  | .str s => s == ""
  | .arr _ => false
  | .obj _ => false

/-- Embedding of the JavaScript idiom `v || d` for a possibly-absent value
`v` (absent = `undefined`, which is falsy). -/
def jsOrDefault (v : Option Json) (d : Json) : Json :=
  match v with
  | none => d
  | some x => if jsFalsy x then d else x

/-- Embedding of `v || d` for a possibly-absent string value (the empty
string is falsy in JavaScript). -/
def jsOrStr (v : Option String) (d : String) : String :=
  match v with
  | none => d
  | some s => if s = "" then d else s

/-- Model of JavaScript `String.prototype.toUpperCase` (the inputs involved
are ASCII method names). -/
def jsToUpperCase (s : String) : String :=
  String.mk (s.data.map Char.toUpper)

/-- Model of JavaScript `String.prototype.toLowerCase` (the inputs involved
are ASCII format names). -/
def jsToLowerCase (s : String) : String :=
  String.mk (s.data.map Char.toLower)

/-! Raw document shapes, as fields the extraction code reads off the object
returned by the external `swagger-parser` library.  A field the document may
lack is an `Option`. -/

/-- Raw parameter object of an operation; the JavaScript field `in` is named
`location` here, and the field `example` is named `exampleVal` (`in` and
`example` are reserved words in Lean). -/
structure RawParam where
  name : Option String
  location : Option String
  required : Option Bool
  description : Option String
  schema : Option Json
  exampleVal : Option Json
  deprecated : Option Bool
deriving Repr

/-- Raw requestBody object of an operation. -/
structure RawRequestBody where
  required : Option Bool
  description : Option String
  content : Option Json
deriving Repr

/-- Raw response object under one status code. -/
structure RawResponse where
  description : Option String
  content : Option Json
  headers : Option Json
deriving Repr

/-- Raw operation object found under a method key of a path item. -/
structure Operation where
  operationId : Option String
  summary : Option String
  description : Option String
  tags : Option (List Json)
  parameters : Option (List RawParam)
  requestBody : Option RawRequestBody
  responses : Option (List (String × RawResponse))
  security : Option (List Json)
  deprecated : Option Bool
deriving Repr

/-- Path item: association of method keys to operation objects, in document
order.  `extractEndpoints` only probes the seven fixed method keys. -/
def PathItem := List (String × Operation)

/-- Parsed API object as returned by the external library:
the fields the wrapper reads.  `paths` is an association list in document
key order (JavaScript object iteration order for string keys). -/
structure Api where
  info : Option Json
  servers : Option (List Json)
  security : Option (List Json)
  components : Option Json
  paths : Option (List (String × PathItem))

/-! Normalized records built by the extraction code. -/

/-- Parameter record built by `extractParameters` (JavaScript field `in`
appears as `location`, and the JavaScript field `example` as `exampleVal`,
since `example` is reserved in Lean). -/
structure Parameter where
  name : Option String
  location : Option String
  required : Bool
  description : String
  schema : Json
  exampleVal : Option Json
  deprecated : Bool
deriving Repr

/-- RequestBody record built by `extractRequestBody`. -/
structure RequestBodyOut where
  required : Bool
  description : String
  content : Json
deriving Repr

/-- Response record built by `extractResponses` for one status code. -/
structure ResponseOut where
  description : String
  content : Json
  headers : Json
deriving Repr

/-- Endpoint record built by `extractEndpoints`. -/
structure Endpoint where
  path : String
  method : String
  operationId : String
  summary : String
  description : String
  tags : List Json
  parameters : List Parameter
  requestBody : Option RequestBodyOut
  responses : List (String × ResponseOut)
  security : List Json
  deprecated : Bool
deriving Repr

/-- The fixed method list iterated by `extractEndpoints`
(`const methods = ['get', 'post', 'put', 'delete', 'patch', 'head', 'options']`). -/
def httpMethods : List String :=
  ["get", "post", "put", "delete", "patch", "head", "options"]

/-- Embedding of `path.replace(/[^a-zA-Z0-9]/g, '_')`: every character that
is not an ASCII letter or digit becomes an underscore. -/
def sanitizePath (p : String) : String :=
  String.mk (p.data.map fun c => if c.isAlphanum then c else '_')

/-- The operationId synthesized when an operation declares none:
`method.toUpperCase() + '_' + path.replace(/[^a-zA-Z0-9]/g, '_')`. -/
def synthOperationId (method p : String) : String :=
  jsToUpperCase method ++ "_" ++ sanitizePath p

/-- Embedding of `extractParameters` (lines 91–101): copies `name` and `in`
verbatim, defaults `required` and `deprecated` to `false`, `description` to
the empty string, `schema` to the empty object, and passes `example`
through unchanged. -/
def extractParameters (parameters : List RawParam) : List Parameter :=
  parameters.map fun param =>
    { name := param.name
      location := param.location
      required := param.required.getD false
      description := param.description.getD ""
      schema := jsOrDefault param.schema (.obj [])
      exampleVal := param.exampleVal
      deprecated := param.deprecated.getD false }

/-- Embedding of `extractRequestBody` (lines 108–116): `null` for an absent
body, otherwise defaults applied to `required`, `description`, `content`. -/
def extractRequestBody (requestBody : Option RawRequestBody) : Option RequestBodyOut :=
  match requestBody with
  | none => none
  | some rb =>
    some { required := rb.required.getD false
           description := rb.description.getD ""
           content := jsOrDefault rb.content (.obj []) }

/-- Embedding of `extractResponses` (lines 123–135).  The JavaScript code
calls `Object.entries(responses)` without a default, so an operation with no
`responses` field raises a `TypeError`; that failure is the `.error` case. -/
def extractResponses (responses : Option (List (String × RawResponse))) :
    Except String (List (String × ResponseOut)) :=
  match responses with
  | none => .error "TypeError: cannot convert undefined to object"
  | some rs =>
    .ok (rs.map fun (code, response) =>
      (code,
       { description := response.description.getD ""
         content := jsOrDefault response.content (.obj [])
         headers := jsOrDefault response.headers (.obj []) }))

/-- Endpoint object literal built inside the method loop of
`extractEndpoints` (lines 64–76); fails exactly when `extractResponses`
does. -/
def buildEndpoint (p method : String) (operation : Operation) : Except String Endpoint :=
  match extractResponses operation.responses with
  | .error msg => .error msg
  | .ok responses =>
    .ok
      { path := p
        method := jsToUpperCase method
        operationId := jsOrStr operation.operationId (synthOperationId method p)
        summary := operation.summary.getD ""
        description := operation.description.getD ""
        tags := operation.tags.getD []
        parameters := extractParameters (operation.parameters.getD [])
        requestBody := extractRequestBody operation.requestBody
        responses := responses
        security := operation.security.getD []
        deprecated := operation.deprecated.getD false }

/-- Lookup of a method key on a path item (`pathItem[method]`). -/
def lookupJs (key : String) : List (String × Operation) → Option Operation
  | [] => none
  | (k, v) :: rest => if k = key then some v else lookupJs key rest

/-- Inner loop of `extractEndpoints` over the fixed method list for one
path: endpoints are pushed in method-list order, skipping absent methods. -/
def extractFromMethods (p : String) (pathItem : PathItem) :
    List String → Except String (List Endpoint)
  | [] => .ok []
  | method :: rest =>
    match lookupJs method pathItem with
    | none => extractFromMethods p pathItem rest
    | some operation =>
      match buildEndpoint p method operation with
      | .error msg => .error msg
      | .ok e =>
        match extractFromMethods p pathItem rest with
        | .error msg => .error msg
        | .ok es => .ok (e :: es)

/-- Outer loop of `extractEndpoints` over `Object.entries(api.paths)` in
document order. -/
def extractPathsEndpoints :
    List (String × PathItem) → Except String (List Endpoint)
  | [] => .ok []
  | (p, pathItem) :: rest =>
    match extractFromMethods p pathItem httpMethods with
    | .error msg => .error msg
    | .ok es =>
      match extractPathsEndpoints rest with
      | .error msg => .error msg
      | .ok more => .ok (es ++ more)

/-- Embedding of `extractEndpoints` (lines 50–84): empty list when the API
object has no `paths`, otherwise the two nested loops. -/
def extractEndpoints (api : Api) : Except String (List Endpoint) :=
  match api.paths with
  | none => .ok []
  | some ps => extractPathsEndpoints ps

/-! The wrapper's `parse` and `validate` call the external library
(`this.parser.parse`) and the filesystem (`fs.access`).  Both are modelled
on an abstract file: a file is missing, malformed, or parses to an `Api`. -/

/-- Abstract state of the file handed to `parse`/`validate`. -/
inductive SwaggerFile where
  | missing : SwaggerFile
  | malformed : String → SwaggerFile
  | valid : Api → SwaggerFile

/-- Model of the external `swagger-parser` library call
`this.parser.parse(filePath)`: rejects missing or malformed files, returns
the document's object otherwise (the library's `parse` does not validate
the document against the OpenAPI schema). -/
def libParse : SwaggerFile → Except String Api
  | .missing => .error "ENOENT: no such file or directory"
  | .malformed msg => .error msg
  | .valid api => .ok api

/-- Model of `fs.access(filePath)`: fails exactly on a missing file. -/
def fsAccess : SwaggerFile → Except String Unit
  | .missing => .error "ENOENT: no such file or directory"
  | _ => .ok ()

/-- Result object returned by `parse` (object literal at lines 32–39). -/
structure ParseResult where
  info : Json
  servers : List Json
  endpoints : List Endpoint
  security : List Json
  components : Json
  raw : Api

/-- Field names of the object literal `parse` returns, in source order
(lines 32–39). -/
def parseResultFields : List String :=
  ["info", "servers", "endpoints", "security", "components", "raw"]

/-- Embedding of `parse` (lines 24–43): file access check, library parse,
endpoint extraction, then the result object with `|| {}` / `|| []`
defaults; any failure is rethrown with a wrapping message. -/
def parse (filePath : SwaggerFile) : Except String ParseResult :=
  Except.mapError (fun msg => "Failed to parse Swagger document: " ++ msg) <|
    match fsAccess filePath with
    | .error msg => .error msg
    | .ok _ =>
      match libParse filePath with
      | .error msg => .error msg
      | .ok api =>
        match extractEndpoints api with
        | .error msg => .error msg
        | .ok endpoints =>
          .ok
            { info := jsOrDefault api.info (.obj [])
              servers := api.servers.getD []
              endpoints := endpoints
              security := api.security.getD []
              components := jsOrDefault api.components (.obj [])
              raw := api }

/-- Embedding of `validate` (lines 191–198): calls the library parse and
converts success/failure to a boolean, never propagating the error. -/
def validate (filePath : SwaggerFile) : Bool :=
  match libParse filePath with
  | .ok _ => true
  | .error _ => false

/-! Serialization: `JSON.stringify(data, null, 2)`, `convertToCsv`, the
external `yaml.dump`, and `saveToFile`. -/

/-- Two-space indentation prefix at nesting depth `n`. -/
def jsonIndent (n : Nat) : String :=
  String.mk (List.replicate (2 * n) ' ')

/-- Escaping of one character inside a JSON string literal (quote and
backslash; the data involved contains no control characters). -/
def escapeJsonChar (c : Char) : String :=
  if c = '"' then "\\\"" else if c = '\\' then "\\\\" else String.mk [c]

/-- A JSON string literal with quotes and escaping. -/
def jsonQuote (s : String) : String :=
  "\"" ++ String.join (s.data.map escapeJsonChar) ++ "\""

mutual

/-- Model of `JSON.stringify(data, null, 2)` at nesting depth `level`:
pretty-printed JSON with two-space indentation, empty composites rendered
inline. -/
def jsonStringify : Json → Nat → String
  | .null, _ => "null"
  | .bool b, _ => if b then "true" else "false"
  | .num n, _ => toString n
  | .str s, _ => jsonQuote s
  | .arr [], _ => "[]"
  | .arr (x :: xs), level =>
    "[\n" ++ jsonItems (x :: xs) (level + 1) ++ "\n" ++ jsonIndent level ++ "]"
  | .obj [], _ => "\x7b\x7d"
  | .obj (kv :: kvs), level =>
    "\x7b\n" ++ jsonFields (kv :: kvs) (level + 1) ++ "\n" ++ jsonIndent level ++ "\x7d"

/-- Array elements of a stringified JSON array, one per line. -/
def jsonItems : List Json → Nat → String
  | [], _ => ""
  | [x], level => jsonIndent level ++ jsonStringify x level
  | x :: y :: rest, level =>
    jsonIndent level ++ jsonStringify x level ++ ",\n" ++ jsonItems (y :: rest) level

/-- Key/value fields of a stringified JSON object, one per line. -/
def jsonFields : List (String × Json) → Nat → String
  | [], _ => ""
  | [(k, v)], level => jsonIndent level ++ jsonQuote k ++ ": " ++ jsonStringify v level
  | (k, v) :: kv :: rest, level =>
    jsonIndent level ++ jsonQuote k ++ ": " ++ jsonStringify v level ++ ",\n" ++
      jsonFields (kv :: rest) level

end

mutual

/-- Model of JavaScript `String(value)` coercion for the values a CSV cell
can hold (an array stringifies as its comma join, an object as the tag
`[object Object]`). -/
def jsToString : Json → String
  | .null => "null"
  | .bool b => if b then "true" else "false"
  | .num n => toString n
  | .str s => s
  | .arr xs => jsJoinList xs
  | .obj _ => "[object Object]"

/-- Model of `Array.prototype.join(',')`: `null`/`undefined` elements
become empty strings. -/
def jsJoinList : List Json → String
  | [] => ""
  | [.null] => ""
  | [x] => jsToString x
  | .null :: y :: rest => "," ++ jsJoinList (y :: rest)
  | x :: y :: rest => jsToString x ++ "," ++ jsJoinList (y :: rest)

end

/-- Association lookup in a JSON object's field list. -/
def jsonAssoc (key : String) : List (String × Json) → Option Json
  | [] => none
  | (k, v) :: rest => if k = key then some v else jsonAssoc key rest

/-- Model of the property access `item[header]`: a field of an object,
absent (`undefined`) otherwise. -/
def jsGetField (key : String) : Json → Option Json
  | .obj kvs => jsonAssoc key kvs
  | _ => none

/-- Model of `Object.keys` for a row object (non-objects contribute no
usable keys here; `convertToCsv` is only reached with arrays of row
objects). -/
def jsKeys : Json → List String
  | .obj kvs => kvs.map (·.1)
  | _ => []

/-- Rendering of one CSV cell inside the row join: a missing or `null`
value renders empty, anything else via `String(value)`. -/
def csvCell : Option Json → String
  | none => ""
  | some .null => ""
  | some v => jsToString v

/-- Embedding of `convertToCsv` (lines 143–151): empty output for empty or
non-array data, otherwise a header line from the first row's keys followed
by one joined line per row. -/
def convertToCsv (data : Json) : String :=
  match data with
  | .arr [] => ""
  | .arr (first :: rest) =>
    let headers := jsKeys first
    let headerLine := String.intercalate "," headers
    let rows := (first :: rest).map fun item =>
      String.intercalate "," (headers.map fun header => csvCell (jsGetField header item))
    String.intercalate "\n" (headerLine :: rows)
  | _ => ""

mutual

/-- Model of the external js-yaml `dump` serializer.  Only totality and
distinctness from the other branches matter to the claims, so it is
modelled as a single-line flow-style rendering. -/
def yamlDump : Json → String
  | .null => "null"
  | .bool b => if b then "true" else "false"
  | .num n => toString n
  | .str s => s
  | .arr xs => "[" ++ yamlFlowList xs ++ "]"
  | .obj kvs => "\x7b" ++ yamlFlowObj kvs ++ "\x7d"

/-- Flow-style list body for the modelled yaml dump. -/
def yamlFlowList : List Json → String
  | [] => ""
  | [x] => yamlDump x
  | x :: y :: rest => yamlDump x ++ ", " ++ yamlFlowList (y :: rest)

/-- Flow-style object body for the modelled yaml dump. -/
def yamlFlowObj : List (String × Json) → String
  | [] => ""
  | [(k, v)] => k ++ ": " ++ yamlDump v
  | (k, v) :: kv :: rest => k ++ ": " ++ yamlDump v ++ ", " ++ yamlFlowObj (kv :: rest)

end

/-- Embedding of `saveToFile` (lines 159–184); the source's default for
`format` is the string `json`.  A successful save is the pair of the output
path and the written content; the default switch branch throws before the
file is written, and the catch block rewraps any thrown message. -/
def saveToFile (data : Json) (outputPath format : String) :
    Except String (String × String) :=
  Except.mapError (fun msg => "Failed to save file: " ++ msg) <|
    if jsToLowerCase format = "json" then .ok (outputPath, jsonStringify data 0)
    else if jsToLowerCase format = "yaml" then .ok (outputPath, yamlDump data)
    else if jsToLowerCase format = "txt" then .ok (outputPath, jsonStringify data 0)
    else if jsToLowerCase format = "csv" then .ok (outputPath, convertToCsv data)
    else .error ("Unsupported output format: " ++ format)

/-! Security tester and report aggregation.  The module
`./tester/securityTester` required by the CLI is not part of the repository
sources, so this whole stage is modelled from the specification (§4, §6,
§7): a pure pipeline catalog → generator → executor → analyzer →
aggregator, with the live target abstracted as a function from test case to
response. -/

/-- Modelled from the spec: configuration accepted by the SecurityTester
constructor (`baseUrl`, `timeout`, `sslVerify` as the CLI passes them);
`timeout := none` models the NaN produced by `parseInt` on a non-numeric
string. -/
structure TesterConfig where
  baseUrl : Option String
  timeout : Option Int
  sslVerify : Bool
deriving Repr, DecidableEq

/-- Modelled from the spec: one probe request derived from an endpoint,
with its deterministic id, category, targeted parameter and payload. -/
structure TestCase where
  id : Nat
  operationId : String
  path : String
  method : String
  category : String
  parameter : String
  payload : String
  isBaseline : Bool
deriving Repr, DecidableEq

/-- Modelled from the spec: observable outcome of one executed request. -/
structure ExecResult where
  status : Nat
  latencyMs : Nat
  body : String
deriving Repr, DecidableEq

/-- Modelled from the spec: one classified deviation between baseline and
probe behaviour. -/
structure Finding where
  path : String
  method : String
  category : String
  parameter : String
  severity : String
  testCaseId : Nat
deriving Repr, DecidableEq

/-- Modelled from the spec: the report handed to the reporting layer. -/
structure TestReport where
  findings : List Finding
  bySeverity : List (String × Nat)
  byCategory : List (String × Nat)
  scannedEndpoints : Nat
  incomplete : Bool
deriving Repr, DecidableEq

/-- Deterministic string hash (31-ary fold modulo 2^32) used for test-case
ids; the spec requires ids to be a deterministic hash, never random. -/
def hashString (s : String) : Nat :=
  s.data.foldl (fun h c => (h * 31 + c.toNat) % 4294967296) 7

/-- Modelled from the spec: deterministic id of a test case from
`(operationId, category, target, payloadIndex)`. -/
def caseId (opId category parameter : String) (idx : Nat) : Nat :=
  hashString (opId ++ "|" ++ category ++ "|" ++ parameter ++ "|" ++ toString idx)

/-- Modelled from the spec: the static payload catalog keyed by category. -/
def payloadTable : String → List String
  | "sql_injection" => ["1 OR 1=1", "1; DROP TABLE users --"]
  | "xss_injection" => ["<script>alert(1)</script>"]
  | "path_traversal" => ["../../../etc/passwd"]
  | "boundary" => ["-1", "0", "2147483647", "not-a-number"]
  | _ => []

/-- Declared schema type of a parameter, when its schema object carries a
string under the key `type`. -/
def schemaType (p : Parameter) : Option String :=
  match jsGetField "type" p.schema with
  | some (.str t) => some t
  | _ => none

/-- Modelled from the spec: payload categories probed for one parameter
(boundary payloads for numeric types; injection payloads otherwise, plus
path traversal for path parameters). -/
def paramCategories (p : Parameter) : List String :=
  match schemaType p with
  | some "integer" => ["boundary"]
  | some "number" => ["boundary"]
  | _ =>
    "sql_injection" :: "xss_injection" ::
      (if p.location = some "path" then ["path_traversal"] else [])

/-- Test case constructor filling the deterministic id. -/
def mkTestCase (e : Endpoint) (category parameter payload : String)
    (idx : Nat) (isBaseline : Bool) : TestCase :=
  { id := caseId e.operationId category parameter idx
    operationId := e.operationId
    path := e.path
    method := e.method
    category := category
    parameter := parameter
    payload := payload
    isBaseline := isBaseline }

/-- Modelled from the spec: one auth-bypass case per declared security
requirement. -/
def genAuthCases (e : Endpoint) : List TestCase :=
  (List.range e.security.length).map fun i =>
    mkTestCase e "auth_bypass" "" "invalid-token" i false

/-- Modelled from the spec: category payload cases for one parameter. -/
def genParamCases (e : Endpoint) (p : Parameter) : List TestCase :=
  (paramCategories p).flatMap fun category =>
    (payloadTable category).enum.map fun (i, payload) =>
      mkTestCase e category (p.name.getD "") payload i false

/-- Modelled from the spec: one mass-assignment case when a request body is
declared. -/
def genBodyCases (e : Endpoint) : List TestCase :=
  match e.requestBody with
  | none => []
  | some _ => [mkTestCase e "mass_assignment" "" "injected_field" 0 false]

/-- Modelled from the spec: the ordered probe set of one endpoint —
baseline, auth bypass, parameter payloads, mass assignment, and the
rate-limit burst case (never empty). -/
def genEndpointCases (e : Endpoint) : List TestCase :=
  mkTestCase e "baseline" "" "" 0 true ::
    (genAuthCases e ++ e.parameters.flatMap (genParamCases e) ++ genBodyCases e ++
      [mkTestCase e "rate_limit" "" "" 0 false])

/-- Modelled from the spec: the generator over the whole catalog. -/
def generate (endpoints : List Endpoint) : List TestCase :=
  endpoints.flatMap genEndpointCases

/-- Prefix test on character lists. -/
def listStartsWith : List Char → List Char → Bool
  | _, [] => true
  | [], _ :: _ => false
  | a :: as, b :: bs => a == b && listStartsWith as bs

/-- Substring test on character lists. -/
def listContainsSub (needle : List Char) : List Char → Bool
  | [] => needle.isEmpty
  | c :: rest => listStartsWith (c :: rest) needle || listContainsSub needle rest

/-- Substring test on strings, used by the analyzer's echo predicates. -/
def containsSub (hay needle : String) : Bool :=
  listContainsSub needle.data hay.data

/-- Finding constructor carrying the test case's endpoint reference. -/
def mkFinding (tc : TestCase) (severity : String) : Finding :=
  { path := tc.path
    method := tc.method
    category := tc.category
    parameter := tc.parameter
    severity := severity
    testCaseId := tc.id }

/-- Modelled from the spec: the fixed rule table of §4.3 applied to one
singleton probe result against the endpoint's baseline result. -/
def analyzeOne (baseline : ExecResult) (tc : TestCase) (r : ExecResult) : List Finding :=
  match tc.category with
  | "auth_bypass" =>
    if 200 ≤ r.status ∧ r.status ≤ 299 then [mkFinding tc "critical"] else []
  | "sql_injection" =>
    if (r.status = 500 ∧ (baseline.status = 200 ∨ baseline.status = 201)) ∨
        3 * baseline.latencyMs ≤ r.latencyMs then
      [mkFinding tc "high"]
    else []
  | "xss_injection" =>
    if containsSub r.body tc.payload then [mkFinding tc "medium"] else []
  | "path_traversal" =>
    if containsSub r.body "root:" ∨ (r.status = 200 ∧ baseline.status = 404) then
      [mkFinding tc "high"]
    else []
  | "mass_assignment" =>
    if containsSub r.body tc.payload then [mkFinding tc "medium"] else []
  | _ => []

/-- Modelled from the spec: the analyzer, pure and deterministic; the
rate-limit rule looks at the whole burst, every other category at its
singleton result. -/
def analyze (baseline : ExecResult) (tc : TestCase) (results : List ExecResult) :
    List Finding :=
  if tc.category = "rate_limit" then
    if results.all (fun r => r.status ≠ 429) then [mkFinding tc "low"] else []
  else
    match results with
    | [r] => analyzeOne baseline tc r
    | _ => []

/-- Modelled from the spec: default burst size of the rate-limit group. -/
def burstCount : Nat := 20

/-- Modelled from the spec: execution of one test case against the target —
a burst of identical requests for the rate-limit case, a single request
otherwise. -/
def execCase (target : TestCase → ExecResult) (tc : TestCase) : List ExecResult :=
  if tc.category = "rate_limit" then
    (List.range burstCount).map (fun _ => target tc)
  else [target tc]

/-- Modelled from the spec: per-endpoint run — the baseline is executed
once and reused as the control for every non-baseline probe. -/
def runEndpoint (target : TestCase → ExecResult) (e : Endpoint) : List Finding :=
  let baseRes := target (mkTestCase e "baseline" "" "" 0 true)
  (genEndpointCases e).flatMap fun tc =>
    if tc.isBaseline then [] else analyze baseRes tc (execCase target tc)

/-- Sort key of a finding per the stability rule of §3: endpoint path, then
method, then category, then parameter name, lexicographically. -/
def findingKey (f : Finding) : String ×ₗ String ×ₗ String ×ₗ String :=
  toLex (f.path, toLex (f.method, toLex (f.category, f.parameter)))

/-- Order on findings induced by `findingKey`. -/
def findingLe (f g : Finding) : Prop :=
  findingKey f ≤ findingKey g

instance : DecidableRel findingLe :=
  fun f g => inferInstanceAs (Decidable (findingKey f ≤ findingKey g))

instance : IsTotal Finding findingLe :=
  ⟨fun a b => le_total (findingKey a) (findingKey b)⟩

instance : IsTrans Finding findingLe :=
  ⟨fun _ _ _ h1 h2 => le_trans h1 h2⟩

/-- Modelled from the spec: deduplication of findings identical in
`(endpointRef, category, parameter, severity)`, first occurrence kept. -/
def dedupAux (seen : List (String × String × String × String × String)) :
    List Finding → List Finding
  | [] => []
  | f :: rest =>
    let k := (f.path, f.method, f.category, f.parameter, f.severity)
    if k ∈ seen then dedupAux seen rest else f :: dedupAux (k :: seen) rest

/-- Deduplicated finding list. -/
def dedupFindings (fs : List Finding) : List Finding :=
  dedupAux [] fs

/-- Stable sort of findings by `findingKey`. -/
def sortFindings (fs : List Finding) : List Finding :=
  List.insertionSort findingLe fs

/-- Count of findings per value of a string-valued key. -/
def countBy (key : Finding → String) (fs : List Finding) : List (String × Nat) :=
  ((fs.map key).eraseDups).map fun k => (k, (fs.filter fun f => key f = k).length)

/-- Modelled from the spec: the aggregator — deduplicate, sort per the
stability rule, summarize, pass `incomplete` through. -/
def aggregateReport (findings : List Finding) (totalEndpoints : Nat)
    (incomplete : Bool) : TestReport :=
  let sorted := sortFindings (dedupFindings findings)
  { findings := sorted
    bySeverity := countBy (·.severity) sorted
    byCategory := countBy (·.category) sorted
    scannedEndpoints := totalEndpoints
    incomplete := incomplete }

/-- Modelled from the spec: `runTests(catalog, config)` — a fatal
ConfigError when `baseUrl` is absent, checked before any request is
dispatched; otherwise the pure pipeline over the catalog. -/
def runTests (catalog : List Endpoint) (config : TesterConfig)
    (target : TestCase → ExecResult) : Except String TestReport :=
  match config.baseUrl with
  | none => .error "ConfigError: baseUrl is required"
  | some _ =>
    .ok (aggregateReport (catalog.flatMap (runEndpoint target)) catalog.length false)

/-! CLI embedding (the `test` and `scan` subcommand actions of the entry
point). -/

/-- Maximal leading decimal-digit run of a character list as a number,
absent when there is none. -/
def leadingDigits (cs : List Char) : Option Nat :=
  let ds := cs.takeWhile Char.isDigit
  if ds.isEmpty then none
  else some (ds.foldl (fun a c => a * 10 + (c.toNat - 48)) 0)

/-- Model of JavaScript `parseInt` with the default decimal radix: skip
leading spaces, optional sign, maximal digit run; `none` models NaN. -/
def jsParseInt (s : String) : Option Int :=
  let cs := s.data.dropWhile (fun c => c = ' ')
  match cs with
  | '-' :: rest => (leadingDigits rest).map (fun n => -(n : Int))
  | '+' :: rest => (leadingDigits rest).map (fun n => (n : Int))
  | _ => (leadingDigits cs).map (fun n => (n : Int))

/-- Options of the `test` subcommand; `timeout` carries the raw option
string, whose commander default is the string `5000` (line 65), and
`sslVerify` is `true` unless `--no-ssl-verify` is passed. -/
structure TestOptions where
  baseUrl : Option String
  timeout : Option String
  report : Option String
  sslVerify : Bool
deriving Repr

/-- Options of the `scan` subcommand; `report` has the commander default
`swagX-report.json`. -/
structure ScanOptions where
  baseUrl : Option String
  output : Option String
  report : String
deriving Repr

/-- Observable outcome of a CLI command action: `exitError` is
`process.exit(1)` from the catch block; `skippedTest` is the scan path
that warns and skips testing when no base URL is given. -/
inductive CmdResult where
  | exitError : CmdResult
  | reportSaved : TestReport → CmdResult
  | printedResults : TestReport → CmdResult
  | skippedTest : Nat → CmdResult
deriving Repr, DecidableEq

/-- Tester configuration built by the `test` action (lines 77–81):
`parseInt(options.timeout)` applied to the option string with the
commander default. -/
def testConfig (options : TestOptions) : TesterConfig :=
  { baseUrl := options.baseUrl
    timeout := jsParseInt (options.timeout.getD "5000")
    sslVerify := options.sslVerify }

/-- Tester configuration built by the `scan` action (lines 118–122):
literal `timeout: 5000` and `sslVerify: true`. -/
def scanTesterConfig (options : ScanOptions) : TesterConfig :=
  { baseUrl := options.baseUrl
    timeout := some 5000
    sslVerify := true }

/-- Embedding of the `test` command action (lines 68–96): parse, run the
tester, then save or print; any thrown error reaches the catch block and
exits. -/
def testCommand (file : SwaggerFile) (options : TestOptions)
    (target : TestCase → ExecResult) : CmdResult :=
  match parse file with
  | .error _ => .exitError
  | .ok swaggerData =>
    match runTests swaggerData.endpoints (testConfig options) target with
    | .error _ => .exitError
    | .ok results =>
      match options.report with
      | some _ => .reportSaved results
      | none => .printedResults results

/-- Embedding of the `scan` command action (lines 106–139): parse, then
test and save a report when a base URL was given, otherwise warn and skip
the security test. -/
def scanCommand (file : SwaggerFile) (options : ScanOptions)
    (target : TestCase → ExecResult) : CmdResult :=
  match parse file with
  | .error _ => .exitError
  | .ok swaggerData =>
    match options.baseUrl with
    | none => .skippedTest swaggerData.endpoints.length
    | some _ =>
      match runTests swaggerData.endpoints (scanTesterConfig options) target with
      | .error _ => .exitError
      | .ok results => .reportSaved results

/-! Specification-side description of the endpoint order, and concrete
inputs used to evaluate the definitions. -/

/-- The endpoint order as the specification describes it: grouped by path
in the document's path order and, within one path, in the fixed method
order, with the method uppercased.  Compared against the projection of
`extractEndpoints`. -/
def specEndpointOrder (api : Api) : List (String × String) :=
  (api.paths.getD []).flatMap fun pe =>
    (httpMethods.filter fun m => (lookupJs m pe.2).isSome).map fun m =>
      (pe.1, jsToUpperCase m)

/-- An API object with every optional field absent. -/
def emptyApi : Api :=
  { info := none, servers := none, security := none, components := none, paths := none }

/-- An operation declaring nothing except an empty responses object. -/
def opPlain : Operation :=
  { operationId := none, summary := none, description := none, tags := none
    parameters := none, requestBody := none, responses := some []
    security := none, deprecated := none }

/-- An operation with no `responses` field at all. -/
def opNoResponses : Operation :=
  { operationId := none, summary := none, description := none, tags := none
    parameters := none, requestBody := none, responses := none
    security := none, deprecated := none }

/-- An API whose two paths differ only in one non-alphanumeric character. -/
def collidingApi : Api :=
  { info := none, servers := none, security := none, components := none
    paths := some [("/a/b", [("get", opPlain)]), ("/a.b", [("get", opPlain)])] }

/-- An API whose single operation lacks a `responses` field. -/
def apiNoResponses : Api :=
  { info := none, servers := none, security := none, components := none
    paths := some [("/x", [("get", opNoResponses)])] }

/-- The endpoint `extractEndpoints` builds for `get /a/b` of `collidingApi`. -/
def endpointAB : Endpoint :=
  { path := "/a/b", method := "GET", operationId := "GET__a_b"
    summary := "", description := "", tags := [], parameters := []
    requestBody := none, responses := [], security := [], deprecated := false }

/-- The endpoint `extractEndpoints` builds for `get /a.b` of `collidingApi`:
its synthesized operationId collides with the one of `endpointAB`. -/
def endpointAdotB : Endpoint :=
  { path := "/a.b", method := "GET", operationId := "GET__a_b"
    summary := "", description := "", tags := [], parameters := []
    requestBody := none, responses := [], security := [], deprecated := false }

/-- A raw parameter whose `in` field holds a value outside
path/query/header/cookie (as a Swagger 2.0 `body` parameter would). -/
def rawBodyParam : RawParam :=
  { name := some "id", location := some "body", required := none
    description := none, schema := none, exampleVal := none, deprecated := none }

/-- The record `extractParameters` produces from `rawBodyParam`. -/
def bodyParamOut : Parameter :=
  { name := some "id", location := some "body", required := false
    description := "", schema := .obj [], exampleVal := none, deprecated := false }

/-- A raw query parameter with an explicit `required` flag. -/
def rawQueryParam : RawParam :=
  { name := some "id", location := some "query", required := some true
    description := none, schema := none, exampleVal := none, deprecated := none }

/-- The record `extractParameters` produces from `rawQueryParam`. -/
def queryParamOut : Parameter :=
  { name := some "id", location := some "query", required := true
    description := "", schema := .obj [], exampleVal := none, deprecated := false }

/-- A deterministic stand-in for the live target: every request gets the
same successful response. -/
def defaultTarget : TestCase → ExecResult :=
  fun _ => { status := 200, latencyMs := 1, body := "" }

/-- Test-command options with nothing supplied on the command line. -/
def topts0 : TestOptions :=
  { baseUrl := none, timeout := none, report := none, sslVerify := true }

/-- Scan-command options with nothing supplied on the command line
(`report` keeps its commander default). -/
def sopts0 : ScanOptions :=
  { baseUrl := none, output := none, report := "swagX-report.json" }

/-- A complete tester configuration for concrete runs. -/
def fullConfig : TesterConfig :=
  { baseUrl := some "http://localhost:8080", timeout := some 5000, sslVerify := true }

/-! Helper lemmas. -/

/-- Character-list decomposition of a synthesized operationId: the
uppercased method, one underscore, the sanitized path. -/
lemma data_synth (m p : String) :
    (synthOperationId m p).data = (jsToUpperCase m).data ++ '_' :: (sanitizePath p).data := by
  have hu : ("_" : String).data = ['_'] := rfl
  simp [synthOperationId, String.data_append, hu]

/-- Fields of a successfully built endpoint that do not depend on the
responses object. -/
lemma buildEndpoint_ok {p m : String} {op : Operation} {e : Endpoint}
    (h : buildEndpoint p m op = .ok e) :
    e.path = p ∧ e.method = jsToUpperCase m ∧
      e.operationId = jsOrStr op.operationId (synthOperationId m p) := by
  unfold buildEndpoint at h
  cases hr : extractResponses op.responses with
  | error msg => rw [hr] at h; exact Except.noConfusion h
  | ok rs =>
    rw [hr] at h
    injection h with h
    subst h
    exact ⟨rfl, rfl, rfl⟩

/-- Projection of the inner method loop to `(path, method)` pairs: the
present methods of the iterated list, in iteration order, uppercased. -/
lemma extractFromMethods_proj (p : String) (item : PathItem) :
    ∀ (ms : List String) (es : List Endpoint),
      extractFromMethods p item ms = .ok es →
      es.map (fun e => (e.path, e.method)) =
        (ms.filter fun m => (lookupJs m item).isSome).map fun m => (p, jsToUpperCase m) := by
  intro ms
  induction ms with
  | nil =>
    intro es h
    injection h with h
    subst h
    rfl
  | cons m rest ih =>
    intro es h
    simp only [extractFromMethods] at h
    cases hl : lookupJs m item with
    | none =>
      simp only [hl] at h
      simp only [List.filter_cons, hl, Option.isSome_none, Bool.false_eq_true, if_false]
      exact ih es h
    | some op =>
      simp only [hl] at h
      cases hb : buildEndpoint p m op with
      | error msg => simp only [hb] at h; exact Except.noConfusion h
      | ok e =>
        simp only [hb] at h
        cases hrec : extractFromMethods p item rest with
        | error msg => simp only [hrec] at h; exact Except.noConfusion h
        | ok es0 =>
          simp only [hrec] at h
          injection h with h
          subst h
          obtain ⟨hp, hm, _⟩ := buildEndpoint_ok hb
          simp [List.filter_cons, hl, hp, hm, ih es0 hrec]

/-- Projection of the outer path loop to `(path, method)` pairs. -/
lemma extractPaths_proj :
    ∀ (ps : List (String × PathItem)) (es : List Endpoint),
      extractPathsEndpoints ps = .ok es →
      es.map (fun e => (e.path, e.method)) =
        ps.flatMap fun pe =>
          (httpMethods.filter fun m => (lookupJs m pe.2).isSome).map fun m =>
            (pe.1, jsToUpperCase m) := by
  intro ps
  induction ps with
  | nil =>
    intro es h
    injection h with h
    subst h
    rfl
  | cons pe rest ih =>
    intro es h
    obtain ⟨p, item⟩ := pe
    simp only [extractPathsEndpoints] at h
    cases h1 : extractFromMethods p item httpMethods with
    | error msg => simp only [h1] at h; exact Except.noConfusion h
    | ok es1 =>
      simp only [h1] at h
      cases h2 : extractPathsEndpoints rest with
      | error msg => simp only [h2] at h; exact Except.noConfusion h
      | ok es2 =>
        simp only [h2] at h
        injection h with h
        subst h
        simp only [List.map_append, List.flatMap_cons]
        rw [extractFromMethods_proj p item httpMethods es1 h1, ih es2 h2]

/-! Claim theorems. -/

/-- C1: when an operation declares no operationId, the endpoint gets the
deterministic synthesis `METHOD_sanitizedPath`; for methods of the fixed
list, two synthesized ids coincide exactly when the methods coincide and
the sanitized paths coincide — so distinct `(path, method)` pairs whose
paths differ only in non-alphanumeric characters collide, and all other
pairs receive distinct ids. -/
theorem c1_operationId_synthesis (m1 m2 p1 p2 pth : String) (op : Operation)
    (e : Endpoint) (h1 : m1 ∈ httpMethods) (h2 : m2 ∈ httpMethods) :
    (synthOperationId m1 p1 = synthOperationId m2 p2 ↔
      m1 = m2 ∧ sanitizePath p1 = sanitizePath p2)
    ∧ (op.operationId = none → buildEndpoint pth m1 op = .ok e →
        e.operationId = synthOperationId m1 pth) := by
  have e1 : (jsToUpperCase "get").data = ['G', 'E', 'T'] := by decide
  have e2 : (jsToUpperCase "post").data = ['P', 'O', 'S', 'T'] := by decide
  have e3 : (jsToUpperCase "put").data = ['P', 'U', 'T'] := by decide
  have e4 : (jsToUpperCase "delete").data = ['D', 'E', 'L', 'E', 'T', 'E'] := by decide
  have e5 : (jsToUpperCase "patch").data = ['P', 'A', 'T', 'C', 'H'] := by decide
  have e6 : (jsToUpperCase "head").data = ['H', 'E', 'A', 'D'] := by decide
  have e7 : (jsToUpperCase "options").data = ['O', 'P', 'T', 'I', 'O', 'N', 'S'] := by decide
  constructor
  · constructor
    · intro heq
      rw [String.ext_iff, data_synth, data_synth] at heq
      fin_cases h1 <;> fin_cases h2 <;>
        simp only [e1, e2, e3, e4, e5, e6, e7, List.cons_append, List.nil_append] at heq <;>
        simp at heq <;>
        exact ⟨rfl, String.ext heq⟩
    · rintro ⟨rfl, hs⟩
      rw [String.ext_iff, data_synth, data_synth, hs]
  · intro hop hbe
    obtain ⟨_, _, hid⟩ := buildEndpoint_ok hbe
    rw [hid, hop]
    rfl

/-- Witness for C1 at the methods `get`, `post` and the path `/a/b`. -/
theorem c1_witness :
    ("get" ∈ httpMethods ∧ "post" ∈ httpMethods)
    ∧ ((synthOperationId "get" "/a" = synthOperationId "post" "/a" ↔
          "get" = "post" ∧ sanitizePath "/a" = sanitizePath "/a")
        ∧ (opPlain.operationId = none → buildEndpoint "/a/b" "get" opPlain = .ok endpointAB →
            endpointAB.operationId = synthOperationId "get" "/a/b")) :=
  ⟨⟨by decide, by decide⟩,
    c1_operationId_synthesis "get" "post" "/a" "/a" "/a/b" opPlain endpointAB
      (by decide) (by decide)⟩

/-- C1 counterexample: in `collidingApi` the operations `get /a/b` and
`get /a.b` are distinct `(path, method)` pairs whose synthesized
operationIds coincide (`GET__a_b`), refuting uniqueness as claimed. -/
theorem c1_counterexample :
    ¬ (∀ (api : Api) (es : List Endpoint) (e1 e2 : Endpoint),
        extractEndpoints api = .ok es → e1 ∈ es → e2 ∈ es →
        (e1.path, e1.method) ≠ (e2.path, e2.method) →
        e1.operationId ≠ e2.operationId) := by
  intro hclaim
  have hex : extractEndpoints collidingApi = .ok [endpointAB, endpointAdotB] := rfl
  exact hclaim collidingApi [endpointAB, endpointAdotB] endpointAB endpointAdotB hex
    (List.mem_cons_self _ _) (List.mem_cons_of_mem _ (List.mem_cons_self _ _))
    (by decide) rfl

/-- C2 (amended): on success `parse` returns the object with the six
fields `info, servers, endpoints, security, components, raw`, where
`info`, `servers`, `security`, `components` default to the empty object or
list when absent from the document. -/
theorem c2_parse_result (api : Api) (es : List Endpoint)
    (h : extractEndpoints api = .ok es) :
    parse (.valid api) = .ok
      { info := jsOrDefault api.info (.obj [])
        servers := api.servers.getD []
        endpoints := es
        security := api.security.getD []
        components := jsOrDefault api.components (.obj [])
        raw := api }
    ∧ (api.info = none → jsOrDefault api.info (.obj []) = .obj [])
    ∧ (api.servers = none → api.servers.getD [] = [])
    ∧ (api.security = none → api.security.getD [] = [])
    ∧ (api.components = none → jsOrDefault api.components (.obj []) = .obj [])
    ∧ parseResultFields = ["info", "servers", "endpoints", "security", "components", "raw"] := by
  refine ⟨?_, fun hi => by simp [jsOrDefault, hi], fun hs => by simp [hs],
    fun hs => by simp [hs], fun hc => by simp [jsOrDefault, hc], rfl⟩
  simp only [parse, fsAccess, libParse, h, Except.mapError]

/-- Witness for C2 at an API object with no optional fields. -/
theorem c2_witness :
    extractEndpoints emptyApi = .ok []
    ∧ (parse (.valid emptyApi) = .ok
        { info := jsOrDefault emptyApi.info (.obj [])
          servers := emptyApi.servers.getD []
          endpoints := []
          security := emptyApi.security.getD []
          components := jsOrDefault emptyApi.components (.obj [])
          raw := emptyApi }
      ∧ (emptyApi.info = none → jsOrDefault emptyApi.info (.obj []) = .obj [])
      ∧ (emptyApi.servers = none → emptyApi.servers.getD [] = [])
      ∧ (emptyApi.security = none → emptyApi.security.getD [] = [])
      ∧ (emptyApi.components = none → jsOrDefault emptyApi.components (.obj []) = .obj [])
      ∧ parseResultFields = ["info", "servers", "endpoints", "security", "components", "raw"]) :=
  ⟨rfl, c2_parse_result emptyApi [] rfl⟩

/-- C2 counterexample: the object `parse` returns does not have exactly the
five claimed fields — it additionally carries `raw`. -/
theorem c2_counterexample :
    parseResultFields ≠ ["info", "servers", "endpoints", "security", "components"] := by
  decide

/-- C3: when parsing fails, both the `test` and the `scan` command abort
with `process.exit(1)` before the tester runs: no report is produced and
no request is sent. -/
theorem c3_parse_failure_aborts (file : SwaggerFile) (msg : String)
    (topts : TestOptions) (sopts : ScanOptions) (target : TestCase → ExecResult)
    (h : parse file = .error msg) :
    testCommand file topts target = .exitError
    ∧ scanCommand file sopts target = .exitError := by
  constructor
  · simp only [testCommand, h]
  · simp only [scanCommand, h]

/-- Witness for C3 at a missing file. -/
theorem c3_witness :
    parse .missing = .error "Failed to parse Swagger document: ENOENT: no such file or directory"
    ∧ (testCommand .missing topts0 defaultTarget = .exitError
      ∧ scanCommand .missing sopts0 defaultTarget = .exitError) :=
  ⟨rfl, c3_parse_failure_aborts .missing _ topts0 sopts0 defaultTarget rfl⟩

/-- C4 (amended): every record `extractParameters` produces copies `name`,
`in` and `example` verbatim from the document — the `in` value is not
validated against `path/query/header/cookie` — and defaults `required` and
`deprecated` to `false` and `schema` to the empty object when absent. -/
theorem c4_parameter_fields (ps : List RawParam) (q : Parameter)
    (h : q ∈ extractParameters ps) :
    ∃ p, p ∈ ps ∧ q.name = p.name ∧ q.location = p.location
      ∧ q.required = p.required.getD false
      ∧ q.description = p.description.getD ""
      ∧ q.schema = jsOrDefault p.schema (.obj [])
      ∧ q.exampleVal = p.exampleVal
      ∧ q.deprecated = p.deprecated.getD false
      ∧ (p.required = none → q.required = false)
      ∧ (p.schema = none → q.schema = .obj [])
      ∧ (p.deprecated = none → q.deprecated = false) := by
  simp only [extractParameters, List.mem_map] at h
  obtain ⟨p, hp, hq⟩ := h
  subst hq
  exact ⟨p, hp, rfl, rfl, rfl, rfl, rfl, rfl, rfl,
    fun hr => by simp [hr], fun hs => by simp [jsOrDefault, hs], fun hd => by simp [hd]⟩

/-- Witness for C4 at a query parameter with an explicit required flag. -/
theorem c4_witness :
    queryParamOut ∈ extractParameters [rawQueryParam]
    ∧ ∃ p, p ∈ [rawQueryParam] ∧ queryParamOut.name = p.name
      ∧ queryParamOut.location = p.location
      ∧ queryParamOut.required = p.required.getD false
      ∧ queryParamOut.description = p.description.getD ""
      ∧ queryParamOut.schema = jsOrDefault p.schema (.obj [])
      ∧ queryParamOut.exampleVal = p.exampleVal
      ∧ queryParamOut.deprecated = p.deprecated.getD false
      ∧ (p.required = none → queryParamOut.required = false)
      ∧ (p.schema = none → queryParamOut.schema = .obj [])
      ∧ (p.deprecated = none → queryParamOut.deprecated = false) :=
  ⟨List.mem_singleton.mpr rfl,
    c4_parameter_fields [rawQueryParam] queryParamOut (List.mem_singleton.mpr rfl)⟩

/-- C4 counterexample: the `in` value of a parameter is copied verbatim, so
a parameter record's location need not lie in `path/query/header/cookie`
(here it is `body`). -/
theorem c4_counterexample :
    ¬ (∀ (ps : List RawParam) (q : Parameter), q ∈ extractParameters ps →
        ∃ loc, q.location = some loc ∧ loc ∈ ["path", "query", "header", "cookie"]) := by
  intro hclaim
  obtain ⟨loc, hql, hmem⟩ :=
    hclaim [rawBodyParam] bodyParamOut (List.mem_singleton.mpr rfl)
  have hloc : loc = "body" := by
    have : (some "body" : Option String) = some loc := hql
    simpa using this.symm
  subst hloc
  simp at hmem

/-- C5 (amended): with no base URL, the `test` command always aborts with
exit code 1 (the modelled tester throws its ConfigError before any request
is dispatched), while the `scan` command either aborts on a parse failure
or skips the whole security-test phase with a warning — it raises no
ConfigError. -/
theorem c5_missing_baseUrl (file : SwaggerFile) (topts : TestOptions)
    (sopts : ScanOptions) (target : TestCase → ExecResult)
    (ht : topts.baseUrl = none) (hs : sopts.baseUrl = none) :
    testCommand file topts target = .exitError
    ∧ (scanCommand file sopts target = .exitError
      ∨ ∃ n, scanCommand file sopts target = .skippedTest n) := by
  constructor
  · cases hp : parse file with
    | error m => simp only [testCommand, hp]
    | ok data => simp only [testCommand, hp, runTests, testConfig, ht]
  · cases hp : parse file with
    | error m => left; simp only [scanCommand, hp]
    | ok data => right; exact ⟨data.endpoints.length, by simp only [scanCommand, hp, hs]⟩

/-- Witness for C5 at empty command options. -/
theorem c5_witness :
    (topts0.baseUrl = none ∧ sopts0.baseUrl = none)
    ∧ (testCommand (.valid emptyApi) topts0 defaultTarget = .exitError
      ∧ (scanCommand (.valid emptyApi) sopts0 defaultTarget = .exitError
        ∨ ∃ n, scanCommand (.valid emptyApi) sopts0 defaultTarget = .skippedTest n)) :=
  ⟨⟨rfl, rfl⟩, c5_missing_baseUrl (.valid emptyApi) topts0 sopts0 defaultTarget rfl rfl⟩

/-- C5 counterexample: the `scan` command with no base URL does not abort
with a ConfigError — it completes, skipping the test phase. -/
theorem c5_counterexample :
    scanCommand (.valid emptyApi) sopts0 defaultTarget = .skippedTest 0
    ∧ CmdResult.skippedTest 0 ≠ CmdResult.exitError :=
  ⟨rfl, by decide⟩

/-- C6: when the user supplies no timeout, the `test` command's tester
configuration carries `parseInt('5000') = 5000` milliseconds, and the
`scan` command's tester configuration carries the literal 5000. -/
theorem c6_default_timeout (topts : TestOptions) (sopts : ScanOptions)
    (h : topts.timeout = none) :
    (testConfig topts).timeout = some 5000
    ∧ (scanTesterConfig sopts).timeout = some 5000 := by
  refine ⟨?_, rfl⟩
  simp only [testConfig, h, Option.getD]
  decide

/-- Witness for C6 at empty test options. -/
theorem c6_witness :
    topts0.timeout = none
    ∧ ((testConfig topts0).timeout = some 5000
      ∧ (scanTesterConfig sopts0).timeout = some 5000) :=
  ⟨rfl, c6_default_timeout topts0 sopts0 rfl⟩

/-- C7: the modelled run is deterministic — two runs against pointwise-equal
(unchanged) targets yield syntactically identical reports — and every
successful report's findings are sorted by endpoint path, then method, then
category, then parameter name. -/
theorem c7_determinism_and_order (catalog : List Endpoint) (config : TesterConfig)
    (t1 t2 : TestCase → ExecResult) (h : ∀ tc, t1 tc = t2 tc) :
    runTests catalog config t1 = runTests catalog config t2
    ∧ (match runTests catalog config t1 with
       | .ok r => List.Sorted findingLe r.findings
       | .error _ => True) := by
  have ht : t1 = t2 := funext h
  subst ht
  refine ⟨rfl, ?_⟩
  cases hb : config.baseUrl with
  | none => simp [runTests, hb]
  | some b =>
    simp only [runTests, hb, aggregateReport, sortFindings]
    exact List.sorted_insertionSort findingLe _

/-- Witness for C7 at a one-endpoint catalog and the constant target. -/
theorem c7_witness :
    (∀ tc, defaultTarget tc = defaultTarget tc)
    ∧ (runTests [endpointAB] fullConfig defaultTarget
        = runTests [endpointAB] fullConfig defaultTarget
      ∧ (match runTests [endpointAB] fullConfig defaultTarget with
         | .ok r => List.Sorted findingLe r.findings
         | .error _ => True)) :=
  ⟨fun _ => rfl,
    c7_determinism_and_order [endpointAB] fullConfig defaultTarget defaultTarget
      (fun _ => rfl)⟩

/-- C8: every extracted endpoint's method is the uppercase form of one of
the seven fixed methods; the endpoint list projects exactly to the
spec-side order (grouped by path in document order, fixed method order
within a path); and an API without `paths` yields the empty list. -/
theorem c8_endpoint_order (api : Api) (es : List Endpoint)
    (h : extractEndpoints api = .ok es) :
    (∀ e ∈ es, e.method ∈ ["GET", "POST", "PUT", "DELETE", "PATCH", "HEAD", "OPTIONS"])
    ∧ es.map (fun e => (e.path, e.method)) = specEndpointOrder api
    ∧ (api.paths = none → es = []) := by
  have hproj : es.map (fun e => (e.path, e.method)) = specEndpointOrder api := by
    cases hp : api.paths with
    | none =>
      simp only [extractEndpoints, hp] at h
      injection h with h
      subst h
      simp [specEndpointOrder, hp]
    | some ps =>
      simp only [extractEndpoints, hp] at h
      rw [extractPaths_proj ps es h]
      simp [specEndpointOrder, hp]
  refine ⟨?_, hproj, ?_⟩
  · intro e he
    have hmem : (e.path, e.method) ∈ specEndpointOrder api := by
      rw [← hproj]
      exact List.mem_map_of_mem _ he
    simp only [specEndpointOrder, List.mem_flatMap, List.mem_map, List.mem_filter] at hmem
    obtain ⟨pe, hpe, m, ⟨hm, hsome⟩, heq⟩ := hmem
    have h2 : jsToUpperCase m = e.method := congrArg Prod.snd heq
    rw [← h2]
    fin_cases hm <;> decide
  · intro hp
    simp only [extractEndpoints, hp] at h
    injection h with h
    exact h.symm

/-- Witness for C8 at the two-path API. -/
theorem c8_witness :
    extractEndpoints collidingApi = .ok [endpointAB, endpointAdotB]
    ∧ ((∀ e ∈ [endpointAB, endpointAdotB],
          e.method ∈ ["GET", "POST", "PUT", "DELETE", "PATCH", "HEAD", "OPTIONS"])
      ∧ [endpointAB, endpointAdotB].map (fun e => (e.path, e.method))
          = specEndpointOrder collidingApi
      ∧ (collidingApi.paths = none → [endpointAB, endpointAdotB] = ([] : List Endpoint))) :=
  ⟨rfl, c8_endpoint_order collidingApi [endpointAB, endpointAdotB] rfl⟩

/-- C9 (amended): `validate` is a total boolean function — it returns true
exactly when the underlying library parse succeeds — and success of the
wrapper's `parse` implies `validate` is true, but not conversely. -/
theorem c9_validate (file : SwaggerFile) :
    validate file = (libParse file).isOk
    ∧ (parse file).isOk ≤ validate file := by
  constructor
  · cases file <;> rfl
  · cases file with
    | missing => decide
    | malformed m =>
      have h : (parse (.malformed m)).isOk = false := rfl
      rw [h]
      exact Bool.false_le _
    | valid api =>
      have h : validate (.valid api) = true := rfl
      rw [h]
      exact Bool.le_true _

/-- C9 counterexample: on a document whose operation lacks a `responses`
field, `validate` returns true while `parse` fails (the `TypeError` raised
by `Object.entries(undefined)` inside `extractResponses`), so `validate`
does not return true exactly when `parse` succeeds. -/
theorem c9_counterexample :
    ¬ (∀ file, validate file = true ↔ (parse file).isOk = true) := by
  intro hclaim
  have h1 : validate (.valid apiNoResponses) = true := rfl
  have h2 := (hclaim (.valid apiNoResponses)).mp h1
  have h3 : (parse (.valid apiNoResponses)).isOk = false := rfl
  rw [h3] at h2
  exact Bool.false_ne_true h2

/-- C10: the `json` and `txt` formats write byte-identical content (both
`JSON.stringify(data, null, 2)`); format dispatch happens on the lowercased
format string; and any format outside json/yaml/txt/csv throws before the
file is written. -/
theorem c10_saveToFile (data : Json) (outputPath f : String) :
    saveToFile data outputPath "json" = saveToFile data outputPath "txt"
    ∧ saveToFile data outputPath "json" = .ok (outputPath, jsonStringify data 0)
    ∧ (jsToLowerCase f = "json" →
        saveToFile data outputPath f = .ok (outputPath, jsonStringify data 0))
    ∧ (jsToLowerCase f = "txt" →
        saveToFile data outputPath f = .ok (outputPath, jsonStringify data 0))
    ∧ (jsToLowerCase f = "yaml" →
        saveToFile data outputPath f = .ok (outputPath, yamlDump data))
    ∧ (jsToLowerCase f = "csv" →
        saveToFile data outputPath f = .ok (outputPath, convertToCsv data))
    ∧ (jsToLowerCase f ∉ (["json", "yaml", "txt", "csv"] : List String) →
        saveToFile data outputPath f =
          .error ("Failed to save file: Unsupported output format: " ++ f)) := by
  refine ⟨rfl, rfl, fun h => ?_, fun h => ?_, fun h => ?_, fun h => ?_, fun h => ?_⟩
  · simp [saveToFile, h, Except.mapError]
  · simp [saveToFile, h, Except.mapError]
  · simp [saveToFile, h, Except.mapError]
  · simp [saveToFile, h, Except.mapError]
  · simp only [List.mem_cons, List.not_mem_nil, or_false, not_or] at h
    obtain ⟨h1, h2, h3, h4⟩ := h
    simp only [saveToFile, if_neg h1, if_neg h2, if_neg h3, if_neg h4, Except.mapError]
    rw [← String.append_assoc,
      show "Failed to save file: " ++ "Unsupported output format: "
        = "Failed to save file: Unsupported output format: " from rfl]

/-- Witness for C10 at the null document and the format `XML`. -/
theorem c10_witness :
    jsToLowerCase "XML" ∉ (["json", "yaml", "txt", "csv"] : List String)
    ∧ saveToFile .null "out.xml" "XML"
        = .error "Failed to save file: Unsupported output format: XML" := by
  refine ⟨by decide, ?_⟩
  have h := (c10_saveToFile .null "out.xml" "XML").2.2.2.2.2.2 (by decide)
  exact h

end SwagX
